import Mathlib

/-!
Verification of the simulation core of the endlessdream repository.

The development shallowly embeds the frame-update, focus-feedback,
spatial-recycling and encounter subsystems of the JavaScript source
(`main.js`, `world.js`, the world/entity modules) as Lean functions over
exact arithmetic: rational numbers for the purely arithmetic focus and
frame-delta code, real numbers wherever the source calls `Math.sqrt`,
`Math.sin`, `Math.cos` or `Math.pow` with fractional exponents.  Every
call to `Math.random()` in the source is modelled as an explicit input
draw, assumed to lie in `[0, 1)` exactly as the JS contract guarantees.
-/

namespace EndlessDream

/-! ## Frame delta clamp (main.js, `animate`)

The source computes `const dt = Math.min(clock.getDelta(), 0.05)` and
passes this `dt` to every subsystem.  Note that only an upper clamp is
applied; there is no lower clamp. -/

/-- Embedding of `Math.min(clock.getDelta(), 0.05)` from `animate` in
`main.js`, as a function of the raw clock delta. -/
def clampDt (raw : ℚ) : ℚ := min raw (5/100)

/-! ## Focus update (main.js, `updateFocus`)

`updateFocus` is pure arithmetic on the focus scalar, the frame delta
and the threat level.  It is stated generically over a linear ordered
field so that it can be instantiated at `ℚ` (computable, used for the
invariant and scenario claims) and at `ℝ` (used to connect with the
entity system, whose distance computation lives in `ℝ`).  The DOM
styling side effects of the JS function are presentation only and carry
no simulation state. -/

/-- Embedding of `updateFocus(dt, threat)` from `main.js`:
`drain = 0.003 + threat * 0.03`, `regen = 0.008`; if `threat > 0.1` then
`focus = max(0, focus - drain * dt * 60)` else
`focus = min(1, focus + regen * dt * 60)`.  The mutable global `focus`
is threaded explicitly. -/
def updateFocus {α : Type*} [LinearOrderedField α] (focus dt threat : α) : α :=
  let drain := 3/1000 + threat * (3/100)
  let regen := 8/1000
  if threat > 1/10 then max 0 (focus - drain * dt * 60)
  else min 1 (focus + regen * dt * 60)

/-- One frame of the focus feedback loop as driven by `animate`: the raw
clock delta is clamped by `clampDt` and fed to `updateFocus` together
with the frame's threat level.  The input pair is `(raw delta, threat)`. -/
def focusStep (f : ℚ) (inp : ℚ × ℚ) : ℚ := updateFocus f (clampDt inp.1) inp.2

/-- The sequence of focus values produced by running `focusStep` over a
sequence of per-frame inputs, including the initial value and every
intermediate state. -/
def focusTrace (f0 : ℚ) (inps : List (ℚ × ℚ)) : List ℚ := List.scanl focusStep f0 inps

/-- Core single-step bound: a single `updateFocus` keeps the focus
scalar inside `[0, 1]`, for every threat level and every nonnegative
frame delta. -/
theorem updateFocus_mem_unit {α : Type*} [LinearOrderedField α]
    (f dt threat : α) (hf0 : 0 ≤ f) (hf1 : f ≤ 1) (hdt : 0 ≤ dt) :
    0 ≤ updateFocus f dt threat ∧ updateFocus f dt threat ≤ 1 := by
  unfold updateFocus
  dsimp only
  split
  · rename_i hthreat
    constructor
    · exact le_max_left 0 _
    · have hdrain : 0 ≤ (3/1000 + threat * (3/100)) * dt * 60 := by nlinarith
      have : f - (3/1000 + threat * (3/100)) * dt * 60 ≤ 1 := by linarith
      exact max_le (by norm_num) this
  · constructor
    · have : (0:α) ≤ f + 8/1000 * dt * 60 := by nlinarith
      exact le_min (by norm_num) this
    · exact min_le_left 1 _

/-- Single frame of `focusStep` preserves the unit interval whenever the
raw clock delta is nonnegative. -/
theorem focusStep_mem_unit (f : ℚ) (inp : ℚ × ℚ)
    (hf0 : 0 ≤ f) (hf1 : f ≤ 1) (hdt : 0 ≤ inp.1) :
    0 ≤ focusStep f inp ∧ focusStep f inp ≤ 1 := by
  have hclamp : 0 ≤ clampDt inp.1 := le_min hdt (by norm_num)
  exact updateFocus_mem_unit f (clampDt inp.1) inp.2 hf0 hf1 hclamp

/-- C1 — for every tick and every sequence of inputs (any threat levels,
any nonnegative raw clock deltas, the only values the monotonic clock
source can produce), every focus value along the simulation trace,
including every intermediate per-frame state, satisfies
`0 ≤ focus ≤ 1`. -/
theorem focus_bounds_invariant (f0 : ℚ) (inps : List (ℚ × ℚ))
    (hf0 : 0 ≤ f0) (hf1 : f0 ≤ 1) (hdts : ∀ p ∈ inps, 0 ≤ p.1) :
    ∀ f ∈ focusTrace f0 inps, 0 ≤ f ∧ f ≤ 1 := by
  induction inps generalizing f0 with
  | nil =>
    intro f hf
    simp only [focusTrace, List.scanl] at hf
    simp only [List.mem_singleton] at hf
    subst hf
    exact ⟨hf0, hf1⟩
  | cons p ps ih =>
    intro f hf
    simp only [focusTrace, List.scanl, List.mem_cons] at hf
    rcases hf with rfl | hf
    · exact ⟨hf0, hf1⟩
    · have hstep := focusStep_mem_unit f0 p hf0 hf1 (hdts p (List.mem_cons_self p ps))
      exact ih (focusStep f0 p) hstep.1 hstep.2
        (fun q hq => hdts q (List.mem_cons_of_mem p hq)) f hf

/-- Witness for C1: a concrete two-frame trace starting at focus `1/2`
with a high-threat frame followed by a calm frame stays in `[0, 1]`. -/
theorem focus_bounds_invariant_witness :
    (0 ≤ (1/2 : ℚ)) ∧ ((1/2 : ℚ) ≤ 1) ∧
      (∀ f ∈ focusTrace (1/2) [(1/60, 1), (1/30, 0)], 0 ≤ f ∧ f ≤ 1) :=
  ⟨by norm_num, by norm_num,
    focus_bounds_invariant (1/2) [(1/60, 1), (1/30, 0)] (by norm_num) (by norm_num)
      (by intro p hp; fin_cases hp <;> norm_num)⟩

/-- C2 (counterexample) — the claim that a negative clock delta is
clamped to a safe minimum of 0 is false: `Math.min(raw, 0.05)` only
clamps from above, so the raw value `-1` is propagated unchanged and the
resulting `dt` lies outside `[0, 0.05]`. -/
theorem dt_clamp_counterexample : clampDt (-1) = -1 ∧ ¬ (0 ≤ clampDt (-1)) := by
  constructor <;> norm_num [clampDt]

/-- C2 (amended) — the frame delta passed to all subsystems is clamped
to a maximum of 0.05 seconds; for every nonnegative raw clock delta (the
only values a monotonic clock source produces) the result lies in
`[0, 0.05]`.  A negative raw value would be propagated unchanged: there
is no lower clamp. -/
theorem dt_clamp_amended (raw : ℚ) :
    clampDt raw ≤ 5/100 ∧ (0 ≤ raw → 0 ≤ clampDt raw ∧ clampDt raw ≤ 5/100) := by
  refine ⟨min_le_right _ _, fun h => ⟨le_min h (by norm_num), min_le_right _ _⟩⟩

/-- Witness for C2 (amended): a typical 60 fps raw delta is preserved
and lies inside the clamped range. -/
theorem dt_clamp_amended_witness :
    clampDt (1/60) ≤ 5/100 ∧ (0 ≤ (1/60 : ℚ) → 0 ≤ clampDt (1/60) ∧ clampDt (1/60) ≤ 5/100) :=
  dt_clamp_amended (1/60)

/-- C4 (counterexample) — the claimed scenario "with `focus = 0`,
`threatLevel = 1`, `dt = 0.1` a single update strictly decreases focus
from its prior value" is false: focus is already at the lower clamp, and
the update leaves it at exactly `0`, not below its prior value. -/
theorem focus_update_counterexample :
    updateFocus (0:ℚ) (1/10) 1 = 0 ∧ ¬ (updateFocus (0:ℚ) (1/10) 1 < 0) := by
  constructor <;> norm_num [updateFocus]

/-- C4 (amended) — for every focus update: if `threatLevel > 0.1` the
new focus is `max 0 (focus - (0.003 + threat*0.03) * dt * 60)` (depleted
at rate `(baseDrain + threat*threatDrainFactor) * dt * 60`, clamped at
0), otherwise it is `min 1 (focus + 0.008 * dt * 60)` (fixed-rate
regeneration clamped at 1); with `threatLevel = 1`, `dt = 0.1` and any
strictly positive prior focus a single update strictly decreases focus
(at prior focus `0` it stays exactly `0`), and with `threatLevel = 0`
and any prior focus below `1` a single update strictly increases focus
until clamped at 1. -/
theorem focus_update_amended :
    (∀ f dt threat : ℚ, threat > 1/10 →
        updateFocus f dt threat = max 0 (f - (3/1000 + threat * (3/100)) * dt * 60)) ∧
    (∀ f dt threat : ℚ, ¬ threat > 1/10 →
        updateFocus f dt threat = min 1 (f + 8/1000 * dt * 60)) ∧
    (∀ f : ℚ, 0 < f → updateFocus f (1/10) 1 < f) ∧
    (updateFocus (0:ℚ) (1/10) 1 = 0) ∧
    (∀ f dt : ℚ, f < 1 → 0 < dt → f < updateFocus f dt 0) := by
  refine ⟨?_, ?_, ?_, ?_, ?_⟩
  · intro f dt threat h
    unfold updateFocus
    dsimp only
    rw [if_pos h]
  · intro f dt threat h
    unfold updateFocus
    dsimp only
    rw [if_neg h]
  · intro f hf
    have h1 : updateFocus f (1/10) 1 = max 0 (f - 99/500) := by
      unfold updateFocus
      dsimp only
      rw [if_pos (by norm_num : (1:ℚ) > 1/10)]
      norm_num
    rw [h1]
    rcases le_or_lt f (99/500) with h | h
    · have : f - 99/500 ≤ 0 := by linarith
      rw [max_eq_left this]
      exact hf
    · have : (0:ℚ) ≤ f - 99/500 := by linarith
      rw [max_eq_right this]
      linarith
  · unfold updateFocus
    dsimp only
    rw [if_pos (by norm_num : (1:ℚ) > 1/10)]
    norm_num
  · intro f dt hf hdt
    have h1 : updateFocus f dt 0 = min 1 (f + 8/1000 * dt * 60) := by
      unfold updateFocus
      dsimp only
      rw [if_neg (by norm_num : ¬ (0:ℚ) > 1/10)]
    rw [h1]
    exact lt_min hf (by nlinarith)

/-- Witness for C4 (amended): at prior focus `1/2`, threat `1`,
`dt = 0.1` the update strictly decreases focus, and at prior focus `1/2`,
threat `0`, `dt = 0.1` it strictly increases focus. -/
theorem focus_update_amended_witness :
    updateFocus (1/2 : ℚ) (1/10) 1 < 1/2 ∧ (1/2 : ℚ) < updateFocus (1/2) (1/10) 0 :=
  ⟨focus_update_amended.2.2.1 (1/2) (by norm_num),
   focus_update_amended.2.2.2.2 (1/2) (1/10) (by norm_num) (by norm_num)⟩

/-! ## Shared math helpers (THREE.MathUtils)

The source uses `THREE.MathUtils.clamp(v, lo, hi) = Math.max(lo,
Math.min(hi, v))` and `THREE.MathUtils.lerp(x, y, t) = x + (y - x) * t`. -/

/-- THREE.MathUtils.clamp. -/
noncomputable def clamp (v lo hi : ℝ) : ℝ := max lo (min hi v)

/-- THREE.MathUtils.lerp. -/
noncomputable def lerp (x y t : ℝ) : ℝ := x + (y - x) * t

/-! ## Encounter state machine (entity module, `createEntitySystem` /
`updateEntities` / `hideEntity` / `pickWhisper`)

The singleton presence is embedded as an explicit state record; the
camera supplies the player's position and yaw (`camera.rotation.y`).
Every `Math.random()` call of `updateEntities` appears as a named input
draw.  The `lookAt` orientation of the eye holder is a render-only
rotation with no bearing on any transition or output and is not
modelled. -/

/-- Mutable encounter state: fields of the closure created by
`createEntitySystem` plus the presence group's world position and
visibility. -/
structure EntityState where
  active : Bool
  timer : ℝ
  cooldown : ℝ
  lastWhisper : String
  posX : ℝ
  posY : ℝ
  posZ : ℝ
  visible : Bool

/-- Player camera data consumed by `updateEntities`: world position and
yaw (`camera.rotation.y`). -/
structure Camera where
  posX : ℝ
  posY : ℝ
  posZ : ℝ
  yaw : ℝ

/-- One `Math.random()` draw per random expression evaluated on an
activation tick of `updateEntities`, each in `[0, 1)`. -/
structure EncounterDraws where
  trig : ℝ
  timer : ℝ
  cool : ℝ
  radius : ℝ
  side : ℝ
  angle : ℝ
  vert : ℝ
  whisper : ℝ

/-- Result of one `updateEntities` tick: the new state plus the
`{ threatLevel, whisper }` record the function returns. -/
structure EntityResult where
  state : EntityState
  threatLevel : ℝ
  whisper : String

/-- Fixed whisper phrase pool from `pickWhisper`. -/
def whisperLines : List String :=
  ["he left you here", "wake up if you can", "the trees remember you",
   "he likes it when you run", "this is the third night", "you have never left"]

/-- Embedding of `pickWhisper`: `lines[Math.floor(Math.random() *
lines.length)]`; the default `""` is unreachable for draws in `[0, 1)`. -/
noncomputable def pickWhisper (r : ℝ) : String :=
  whisperLines.getD (⌊r * (whisperLines.length : ℝ)⌋).toNat ""

/-- Embedding of `hideEntity`: hides the group, leaves `Active`, zeroes
the active timer. -/
def hideEntity (s : EntityState) : EntityState :=
  { s with visible := false, active := false, timer := 0 }

/-- Three-dimensional distance from the presence group to the camera
(`group.position.distanceTo(camera.position)`). -/
noncomputable def entityDist (s : EntityState) (cam : Camera) : ℝ :=
  Real.sqrt ((s.posX - cam.posX)^2 + (s.posY - cam.posY)^2 + (s.posZ - cam.posZ)^2)

/-- Threat level as a function of presence-to-player distance:
`THREE.MathUtils.clamp(1 - dist / 16, 0, 1)`. -/
noncomputable def threatOfDist (dist : ℝ) : ℝ := clamp (1 - dist / 16) 0 1

/-- Embedding of the `if (state.active) { ... }` block of
`updateEntities`: distance, threat level, and the timeout / catch-radius
deactivation check.  `whisper` is the value of the local `whisper`
variable at this point of the tick. -/
noncomputable def entityActivePhase (s : EntityState) (cam : Camera)
    (whisper : String) : EntityResult :=
  if s.active then
    let dist := entityDist s cam
    let threatLevel := threatOfDist dist
    if s.timer ≤ 0 ∨ dist < 1.2 then
      { state := hideEntity s, threatLevel := threatLevel, whisper := whisper }
    else
      { state := s, threatLevel := threatLevel, whisper := whisper }
  else
    { state := s, threatLevel := 0, whisper := whisper }

/-- State written by the body of the successful activation trial of
`updateEntities`: transition to Active, draw the new active window and
the next cooldown, spawn the presence at a radius of `5 + rand * 10`
units from the player, offset from the facing yaw by a randomized angle
`0.9 + rand * 0.4` to a random side, with a small vertical jitter, show
the group, and pick the whisper line. -/
noncomputable def spawnState (s1 : EntityState) (cam : Camera)
    (rnd : EncounterDraws) : EntityState :=
  let radius := 5 + rnd.radius * 10
  let side : ℝ := if rnd.side < 0.5 then -1 else 1
  let angleOffset := side * (0.9 + rnd.angle * 0.4)
  let yaw := cam.yaw + angleOffset
  { s1 with
    active := true
    timer := 3 + rnd.timer * 3
    cooldown := 10 + rnd.cool * 15
    posX := cam.posX + Real.sin yaw * radius
    posY := cam.posY + (rnd.vert * 0.5 - 0.2)
    posZ := cam.posZ + Real.cos yaw * radius
    visible := true
    lastWhisper := pickWhisper rnd.whisper }

/-- Embedding of `updateEntities(state, camera, dt, focus)`: timers are
advanced first, then the Dormant-side probabilistic activation (the
Bernoulli trial `Math.random() < chance * dt * 60` is represented by the
`rnd.trig` draw), then the Active-side block.  The returned whisper is
the freshly picked line when the trial fires and the empty string
otherwise, exactly as the local `whisper` variable of the source. -/
noncomputable def updateEntities (s0 : EntityState) (cam : Camera) (dt focus : ℝ)
    (rnd : EncounterDraws) : EntityResult :=
  let s1 : EntityState := { s0 with cooldown := s0.cooldown - dt, timer := s0.timer - dt }
  let chance := 0.02 + (1 - focus) * 0.12
  if s1.active = false ∧ s1.cooldown ≤ 0 ∧ rnd.trig < chance * dt * 60 then
    entityActivePhase (spawnState s1 cam rnd) cam (spawnState s1 cam rnd).lastWhisper
  else
    entityActivePhase s1 cam ""

/-- The selected whisper is always one of the six pool phrases when the
draw lies in `[0, 1)`. -/
theorem pickWhisper_mem (r : ℝ) (h0 : 0 ≤ r) (h1 : r < 1) :
    pickWhisper r ∈ whisperLines := by
  unfold pickWhisper
  have hlen : (whisperLines.length : ℝ) = 6 := by norm_num [whisperLines]
  rw [hlen]
  have hflo : 0 ≤ ⌊r * 6⌋ := Int.floor_nonneg.mpr (by nlinarith)
  have hfhi : ⌊r * 6⌋ < 6 := by
    apply Int.floor_lt.mpr
    push_cast
    nlinarith
  have hn : (⌊r * 6⌋).toNat < whisperLines.length := by
    simp only [whisperLines, List.length]
    omega
  rw [List.getD_eq_getElem whisperLines "" hn]
  exact List.getElem_mem hn

/-- Each pool phrase is selected exactly on an interval of draws of
length `1/6`: for draws in `[i/6, (i+1)/6)` the selected phrase is line
`i` of the pool (uniform selection from a uniform draw). -/
theorem pickWhisper_uniform (r : ℝ) (i : ℕ) (hi : i < 6)
    (hlo : (i : ℝ) / 6 ≤ r) (hhi : r < ((i : ℝ) + 1) / 6) :
    pickWhisper r = whisperLines.getD i "" := by
  unfold pickWhisper
  have hlen : (whisperLines.length : ℝ) = 6 := by norm_num [whisperLines]
  rw [hlen]
  have hfloor : ⌊r * 6⌋ = (i : ℤ) := by
    apply Int.floor_eq_iff.mpr
    constructor
    · push_cast; linarith
    · push_cast; linarith
  rw [hfloor]
  simp

/-- No phrase in the pool is the empty string. -/
theorem whisperLines_ne_empty : ∀ l ∈ whisperLines, l ≠ "" := by decide

/-- Threat is monotonically non-increasing in distance. -/
theorem threatOfDist_antitone (d1 d2 : ℝ) (h : d1 ≤ d2) :
    threatOfDist d2 ≤ threatOfDist d1 := by
  unfold threatOfDist clamp
  have h1 : 1 - d2 / 16 ≤ 1 - d1 / 16 := by linarith
  exact max_le_max le_rfl (min_le_min le_rfl h1)

/-- Squared spawn offset: the freshly spawned presence sits at exactly
`sqrt(radius^2 + dy^2)` from the camera, by the Pythagorean identity for
the yaw angle. -/
theorem dist_sq_spawn (px py pz yaw radius dy : ℝ) :
    (px + Real.sin yaw * radius - px)^2 + (py + dy - py)^2 +
      (pz + Real.cos yaw * radius - pz)^2 = radius^2 + dy^2 := by
  have h := Real.sin_sq_add_cos_sq yaw
  linear_combination radius^2 * h

/-- Distance from a freshly spawned presence to the camera. -/
theorem entityDist_spawnState (s1 : EntityState) (cam : Camera) (rnd : EncounterDraws) :
    entityDist (spawnState s1 cam rnd) cam =
      Real.sqrt ((5 + rnd.radius * 10)^2 + (rnd.vert * 0.5 - 0.2)^2) := by
  unfold entityDist spawnState
  dsimp only
  congr 1
  exact dist_sq_spawn cam.posX cam.posY cam.posZ _ _ _

/-- C5 — whenever the encounter state machine is Dormant with a
cooldown that reaches `≤ 0` on this tick and the Bernoulli trigger draw
succeeds, the tick transitions the state to Active (and it stays Active
through the same tick's proximity check), selects a whisper from the
fixed phrase pool that is not the empty string, sets the active time
remaining to a value in `[3, 6]` seconds, and sets the next cooldown to
a value in `[10, 25]` seconds. -/
theorem encounter_activation_spec (s0 : EntityState) (cam : Camera) (dt focus : ℝ)
    (rnd : EncounterDraws)
    (hact : s0.active = false)
    (hcool : s0.cooldown - dt ≤ 0)
    (htrig : rnd.trig < (0.02 + (1 - focus) * 0.12) * dt * 60)
    (htimer0 : 0 ≤ rnd.timer) (htimer1 : rnd.timer < 1)
    (hcool0 : 0 ≤ rnd.cool) (hcool1 : rnd.cool < 1)
    (hradius0 : 0 ≤ rnd.radius) (hradius1 : rnd.radius < 1)
    (hwhisper0 : 0 ≤ rnd.whisper) (hwhisper1 : rnd.whisper < 1) :
    (updateEntities s0 cam dt focus rnd).state.active = true ∧
    3 ≤ (updateEntities s0 cam dt focus rnd).state.timer ∧
    (updateEntities s0 cam dt focus rnd).state.timer ≤ 6 ∧
    10 ≤ (updateEntities s0 cam dt focus rnd).state.cooldown ∧
    (updateEntities s0 cam dt focus rnd).state.cooldown ≤ 25 ∧
    (updateEntities s0 cam dt focus rnd).whisper ∈ whisperLines ∧
    (updateEntities s0 cam dt focus rnd).whisper ≠ "" ∧
    (updateEntities s0 cam dt focus rnd).state.visible = true := by
  have hcond : ({ s0 with cooldown := s0.cooldown - dt, timer := s0.timer - dt } :
      EntityState).active = false ∧
      ({ s0 with cooldown := s0.cooldown - dt, timer := s0.timer - dt } :
      EntityState).cooldown ≤ 0 ∧
      rnd.trig < (0.02 + (1 - focus) * 0.12) * dt * 60 := ⟨hact, hcool, htrig⟩
  have hout : updateEntities s0 cam dt focus rnd =
      entityActivePhase
        (spawnState { s0 with cooldown := s0.cooldown - dt, timer := s0.timer - dt } cam rnd)
        cam
        (spawnState { s0 with cooldown := s0.cooldown - dt, timer := s0.timer - dt }
          cam rnd).lastWhisper := by
    unfold updateEntities
    rw [if_pos hcond]
  have hs2act : (spawnState { s0 with cooldown := s0.cooldown - dt, timer := s0.timer - dt }
      cam rnd).active = true := rfl
  have hs2timer : (spawnState { s0 with cooldown := s0.cooldown - dt, timer := s0.timer - dt }
      cam rnd).timer = 3 + rnd.timer * 3 := rfl
  have hs2cool : (spawnState { s0 with cooldown := s0.cooldown - dt, timer := s0.timer - dt }
      cam rnd).cooldown = 10 + rnd.cool * 15 := rfl
  have hs2whisper : (spawnState { s0 with cooldown := s0.cooldown - dt, timer := s0.timer - dt }
      cam rnd).lastWhisper = pickWhisper rnd.whisper := rfl
  have hdist := entityDist_spawnState
    { s0 with cooldown := s0.cooldown - dt, timer := s0.timer - dt } cam rnd
  have hr0 : (0:ℝ) ≤ 5 + rnd.radius * 10 := by nlinarith
  have hdistge : 5 ≤ entityDist
      (spawnState { s0 with cooldown := s0.cooldown - dt, timer := s0.timer - dt } cam rnd)
      cam := by
    rw [hdist]
    have h1 : (5 + rnd.radius * 10) = Real.sqrt ((5 + rnd.radius * 10)^2) :=
      (Real.sqrt_sq hr0).symm
    have h2 : Real.sqrt ((5 + rnd.radius * 10)^2) ≤
        Real.sqrt ((5 + rnd.radius * 10)^2 + (rnd.vert * 0.5 - 0.2)^2) :=
      Real.sqrt_le_sqrt (by nlinarith)
    nlinarith
  have hphase : entityActivePhase
      (spawnState { s0 with cooldown := s0.cooldown - dt, timer := s0.timer - dt } cam rnd)
      cam
      (spawnState { s0 with cooldown := s0.cooldown - dt, timer := s0.timer - dt }
        cam rnd).lastWhisper =
      { state := spawnState { s0 with cooldown := s0.cooldown - dt, timer := s0.timer - dt }
          cam rnd,
        threatLevel := threatOfDist (entityDist
          (spawnState { s0 with cooldown := s0.cooldown - dt, timer := s0.timer - dt } cam rnd)
          cam),
        whisper := (spawnState { s0 with cooldown := s0.cooldown - dt, timer := s0.timer - dt }
          cam rnd).lastWhisper } := by
    unfold entityActivePhase
    rw [if_pos hs2act]
    dsimp only
    rw [if_neg (by
      push_neg
      refine ⟨?_, by linarith⟩
      rw [hs2timer]
      nlinarith)]
  rw [hout, hphase]
  refine ⟨hs2act, ?_, ?_, ?_, ?_, ?_, ?_, rfl⟩
  · rw [hs2timer]; nlinarith
  · rw [hs2timer]; nlinarith
  · rw [hs2cool]; nlinarith
  · rw [hs2cool]; nlinarith
  · rw [hs2whisper]
    exact pickWhisper_mem rnd.whisper hwhisper0 hwhisper1
  · rw [hs2whisper]
    exact whisperLines_ne_empty _ (pickWhisper_mem rnd.whisper hwhisper0 hwhisper1)

/-- Witness for C5: a concrete Dormant state with expired cooldown, a
passing trigger draw and all other draws at concrete in-range values
activates and satisfies all documented ranges. -/
theorem encounter_activation_spec_witness :
    ((⟨false, 0, 0, "", 0, 0, 0, false⟩ : EntityState).active = false) ∧
    ((updateEntities ⟨false, 0, 0, "", 0, 0, 0, false⟩ ⟨0, 1.6, 0, 0⟩ 1 0
        ⟨0, 0, 0, 0, 0, 0, 0, 0⟩).state.active = true ∧
      3 ≤ (updateEntities ⟨false, 0, 0, "", 0, 0, 0, false⟩ ⟨0, 1.6, 0, 0⟩ 1 0
        ⟨0, 0, 0, 0, 0, 0, 0, 0⟩).state.timer ∧
      (updateEntities ⟨false, 0, 0, "", 0, 0, 0, false⟩ ⟨0, 1.6, 0, 0⟩ 1 0
        ⟨0, 0, 0, 0, 0, 0, 0, 0⟩).state.timer ≤ 6 ∧
      10 ≤ (updateEntities ⟨false, 0, 0, "", 0, 0, 0, false⟩ ⟨0, 1.6, 0, 0⟩ 1 0
        ⟨0, 0, 0, 0, 0, 0, 0, 0⟩).state.cooldown ∧
      (updateEntities ⟨false, 0, 0, "", 0, 0, 0, false⟩ ⟨0, 1.6, 0, 0⟩ 1 0
        ⟨0, 0, 0, 0, 0, 0, 0, 0⟩).state.cooldown ≤ 25 ∧
      (updateEntities ⟨false, 0, 0, "", 0, 0, 0, false⟩ ⟨0, 1.6, 0, 0⟩ 1 0
        ⟨0, 0, 0, 0, 0, 0, 0, 0⟩).whisper ∈ whisperLines ∧
      (updateEntities ⟨false, 0, 0, "", 0, 0, 0, false⟩ ⟨0, 1.6, 0, 0⟩ 1 0
        ⟨0, 0, 0, 0, 0, 0, 0, 0⟩).whisper ≠ "" ∧
      (updateEntities ⟨false, 0, 0, "", 0, 0, 0, false⟩ ⟨0, 1.6, 0, 0⟩ 1 0
        ⟨0, 0, 0, 0, 0, 0, 0, 0⟩).state.visible = true) :=
  ⟨rfl, encounter_activation_spec _ _ _ _ _ rfl (by norm_num) (by norm_num)
    le_rfl (by norm_num) le_rfl (by norm_num) le_rfl (by norm_num) le_rfl (by norm_num)⟩

/-- C6 — while the encounter is Active, a tick returns to Dormant
exactly when the decremented active timer is `≤ 0` or the
presence-to-player distance falls below the catch radius `1.2`; the
threat level reported for the tick equals `clamp(1 - dist/16, 0, 1)`,
which is monotonically non-increasing in distance, so at distance `0.5`
the tick returns to Dormant and reports a threat level at least the one
distance `1.2` would yield. -/
theorem encounter_deactivation_spec (s0 : EntityState) (cam : Camera) (dt focus : ℝ)
    (rnd : EncounterDraws) (hact : s0.active = true) :
    ((updateEntities s0 cam dt focus rnd).state.active = false ↔
      (s0.timer - dt ≤ 0 ∨ entityDist s0 cam < 1.2)) ∧
    (updateEntities s0 cam dt focus rnd).threatLevel = threatOfDist (entityDist s0 cam) ∧
    (updateEntities s0 cam dt focus rnd).whisper = "" ∧
    (∀ d1 d2 : ℝ, d1 ≤ d2 → threatOfDist d2 ≤ threatOfDist d1) ∧
    (entityDist s0 cam = 0.5 →
      (updateEntities s0 cam dt focus rnd).state.active = false ∧
      threatOfDist 1.2 ≤ (updateEntities s0 cam dt focus rnd).threatLevel) := by
  have hdist : entityDist
      ({ s0 with cooldown := s0.cooldown - dt, timer := s0.timer - dt } : EntityState) cam
      = entityDist s0 cam := rfl
  have hmain : (updateEntities s0 cam dt focus rnd).state.active = false ↔
      (s0.timer - dt ≤ 0 ∨ entityDist s0 cam < 1.2) := by
    unfold updateEntities
    rw [if_neg (by
      intro hcond
      rw [hact] at hcond
      exact absurd hcond.1 (by simp))]
    unfold entityActivePhase
    rw [if_pos hact]
    dsimp only
    rw [hdist]
    by_cases h : s0.timer - dt ≤ 0 ∨ entityDist s0 cam < 1.2
    · rw [if_pos h]
      simpa [hideEntity] using h
    · rw [if_neg h]
      dsimp only
      rw [hact]
      simpa using h
  have hthreat : (updateEntities s0 cam dt focus rnd).threatLevel =
      threatOfDist (entityDist s0 cam) := by
    unfold updateEntities
    rw [if_neg (by
      intro hcond
      rw [hact] at hcond
      exact absurd hcond.1 (by simp))]
    unfold entityActivePhase
    rw [if_pos hact]
    dsimp only
    rw [hdist]
    by_cases h : s0.timer - dt ≤ 0 ∨ entityDist s0 cam < 1.2
    · rw [if_pos h]
    · rw [if_neg h]
  have hwhisp : (updateEntities s0 cam dt focus rnd).whisper = "" := by
    unfold updateEntities
    rw [if_neg (by
      intro hcond
      rw [hact] at hcond
      exact absurd hcond.1 (by simp))]
    unfold entityActivePhase
    rw [if_pos hact]
    dsimp only
    by_cases h : s0.timer - dt ≤ 0 ∨
        entityDist ({ s0 with cooldown := s0.cooldown - dt, timer := s0.timer - dt } :
          EntityState) cam < 1.2
    · rw [if_pos h]
    · rw [if_neg h]
  refine ⟨hmain, hthreat, hwhisp, threatOfDist_antitone, fun hhalf => ⟨?_, ?_⟩⟩
  · exact hmain.mpr (Or.inr (by rw [hhalf]; norm_num))
  · rw [hthreat, hhalf]
    exact threatOfDist_antitone _ _ (by norm_num)

/-- Witness for C6: a concrete Active presence at distance `1/2` from
the player (camera at the origin, presence at `(1/2, 0, 0)`) returns to
Dormant with a threat level of at least the distance-`1.2` value. -/
theorem encounter_deactivation_spec_witness :
    (((⟨true, 1, 5, "", 0.5, 0, 0, true⟩ : EntityState).active = true) ∧
      (entityDist ⟨true, 1, 5, "", 0.5, 0, 0, true⟩ ⟨0, 0, 0, 0⟩ = 0.5)) ∧
    ((updateEntities ⟨true, 1, 5, "", 0.5, 0, 0, true⟩ ⟨0, 0, 0, 0⟩ (1/60) 1
        ⟨0, 0, 0, 0, 0, 0, 0, 0⟩).state.active = false ∧
      threatOfDist 1.2 ≤ (updateEntities ⟨true, 1, 5, "", 0.5, 0, 0, true⟩ ⟨0, 0, 0, 0⟩ (1/60) 1
        ⟨0, 0, 0, 0, 0, 0, 0, 0⟩).threatLevel) := by
  have hd : entityDist ⟨true, 1, 5, "", 0.5, 0, 0, true⟩ ⟨0, 0, 0, 0⟩ = 0.5 := by
    unfold entityDist
    dsimp only
    rw [show ((0.5:ℝ) - 0)^2 + (0 - 0)^2 + (0 - 0)^2 = 0.5^2 by norm_num]
    exact Real.sqrt_sq (by norm_num)
  exact ⟨⟨rfl, hd⟩,
    (encounter_deactivation_spec ⟨true, 1, 5, "", 0.5, 0, 0, true⟩ ⟨0, 0, 0, 0⟩ (1/60) 1
      ⟨0, 0, 0, 0, 0, 0, 0, 0⟩ rfl).2.2.2.2 hd⟩

/-- C10 — on every tick in which the encounter is Dormant and the
activation does not fire (either the cooldown has not yet expired or the
Bernoulli draw fails), `updateEntities` returns threat level `0` and the
empty string (not null) as whisper, the state stays Dormant, and
consequently `updateFocus` takes the regeneration branch on that tick:
focus does not decrease and equals `min 1 (focus + 0.008 * dt * 60)`. -/
theorem dormant_tick_spec (s0 : EntityState) (cam : Camera) (dt focus : ℝ)
    (rnd : EncounterDraws)
    (hact : s0.active = false)
    (hno : ¬ (s0.cooldown - dt ≤ 0 ∧ rnd.trig < (0.02 + (1 - focus) * 0.12) * dt * 60)) :
    (updateEntities s0 cam dt focus rnd).threatLevel = 0 ∧
    (updateEntities s0 cam dt focus rnd).whisper = "" ∧
    (updateEntities s0 cam dt focus rnd).state.active = false ∧
    (∀ f : ℝ, 0 ≤ f → f ≤ 1 → 0 ≤ dt →
      f ≤ updateFocus f dt (updateEntities s0 cam dt focus rnd).threatLevel ∧
      updateFocus f dt (updateEntities s0 cam dt focus rnd).threatLevel =
        min 1 (f + 8/1000 * dt * 60)) := by
  have hout : updateEntities s0 cam dt focus rnd =
      { state := { s0 with cooldown := s0.cooldown - dt, timer := s0.timer - dt },
        threatLevel := 0, whisper := "" } := by
    unfold updateEntities
    rw [if_neg (by
      intro hcond
      exact hno ⟨hcond.2.1, hcond.2.2⟩)]
    unfold entityActivePhase
    rw [if_neg (by rw [hact]; simp)]
  rw [hout]
  refine ⟨rfl, rfl, hact, fun f hf0 hf1 hdt => ?_⟩
  have hreg : updateFocus f dt (0:ℝ) = min 1 (f + 8/1000 * dt * 60) := by
    unfold updateFocus
    dsimp only
    rw [if_neg (by norm_num)]
  refine ⟨?_, hreg⟩
  rw [hreg]
  exact le_min hf1 (by nlinarith)

/-- Witness for C10: a Dormant state whose cooldown is far from expiring
yields threat `0`, an empty whisper, and a non-decreasing focus update. -/
theorem dormant_tick_spec_witness :
    ((updateEntities ⟨false, 0, 100, "", 0, 0, 0, false⟩ ⟨0, 1.6, 0, 0⟩ (1/60) 1
        ⟨0.5, 0, 0, 0, 0, 0, 0, 0⟩).threatLevel = 0 ∧
      (updateEntities ⟨false, 0, 100, "", 0, 0, 0, false⟩ ⟨0, 1.6, 0, 0⟩ (1/60) 1
        ⟨0.5, 0, 0, 0, 0, 0, 0, 0⟩).whisper = "" ∧
      (updateEntities ⟨false, 0, 100, "", 0, 0, 0, false⟩ ⟨0, 1.6, 0, 0⟩ (1/60) 1
        ⟨0.5, 0, 0, 0, 0, 0, 0, 0⟩).state.active = false ∧
      (∀ f : ℝ, 0 ≤ f → f ≤ 1 → 0 ≤ (1/60 : ℝ) →
        f ≤ updateFocus f (1/60)
          (updateEntities ⟨false, 0, 100, "", 0, 0, 0, false⟩ ⟨0, 1.6, 0, 0⟩ (1/60) 1
            ⟨0.5, 0, 0, 0, 0, 0, 0, 0⟩).threatLevel ∧
        updateFocus f (1/60)
          (updateEntities ⟨false, 0, 100, "", 0, 0, 0, false⟩ ⟨0, 1.6, 0, 0⟩ (1/60) 1
            ⟨0.5, 0, 0, 0, 0, 0, 0, 0⟩).threatLevel = min 1 (f + 8/1000 * (1/60) * 60))) :=
  dormant_tick_spec ⟨false, 0, 100, "", 0, 0, 0, false⟩ ⟨0, 1.6, 0, 0⟩ (1/60) 1
    ⟨0.5, 0, 0, 0, 0, 0, 0, 0⟩ rfl (by norm_num)

/-! ## Spatial recycler (two source variants of `randomizeTreePosition`)

The golden-angle variant (the unnamed world module, `part_000`) samples
up to 7 candidates; the chosen position is initialised to the player's
own position `(cx, cz)` and is only overwritten by the first candidate
that passes the spacing check, so when every attempt fails the tree is
placed at the player, not at the last candidate.  The `world.js` variant
samples up to 20 candidates and keeps the variables of the last executed
attempt, so its fallback is the last sampled candidate.  Each attempt's
`Math.random()` draws are passed as an explicit list: one `(jitter,
radius)` pair per attempt for the golden-angle variant, one `(angle,
radius)` pair per attempt for the `world.js` variant. -/

/-- Golden-angle increment (≈137.5 degrees) used by the `part_000`
variant for even angular dispersion. -/
noncomputable def goldenAngle : ℝ := 2.399963229728653

/-- Candidate radius of the `part_000` variant:
`minRadius + (maxRadius - minRadius) * (0.35 + 0.65 * rand^0.8)` with
`minRadius = 6`, `maxRadius = 40`. -/
noncomputable def candidateRadius (rRand : ℝ) : ℝ :=
  6 + (40 - 6) * (0.35 + 0.65 * rRand ^ (0.8 : ℝ))

/-- Candidate anchor sampled by one attempt of the `part_000` variant:
angle `index * goldenAngle + (rand - 0.5) * 0.6`, radius
`candidateRadius`, converted to a Cartesian offset from the player at
`(cx, cz)`. -/
noncomputable def candidate (cx cz index jitterRand rRand : ℝ) : ℝ × ℝ :=
  let angle := index * goldenAngle + (jitterRand - 0.5) * 0.6
  let r := candidateRadius rRand
  (cx + Real.cos angle * r, cz + Real.sin angle * r)

/-- Spacing acceptance check of the `part_000` variant: the squared
planar distance from every other tree's anchor must not be below
`minSpacing^2 = 2.8^2`. -/
def spacingOk (x z : ℝ) (others : List (ℝ × ℝ)) : Prop :=
  ∀ q ∈ others, ¬ ((q.1 - x) * (q.1 - x) + (q.2 - z) * (q.2 - z) < 2.8 * 2.8)

open Classical in
/-- Anchor chosen by the attempt loop of `randomizeTreePosition` in the
`part_000` variant: `chosenX/chosenZ` start at the player position
`(cx, cz)`; the loop breaks at the first candidate passing the spacing
check; if every attempt fails, the initial `(cx, cz)` is kept.  The
orientation write (`rotation.y`) of the source carries no anchor state
and is not modelled. -/
noncomputable def randomizeTreePosition (cx cz index : ℝ) (others : List (ℝ × ℝ)) :
    List (ℝ × ℝ) → ℝ × ℝ
  | [] => (cx, cz)
  | d :: rest =>
    let c := candidate cx cz index d.1 d.2
    if spacingOk c.1 c.2 others then c else randomizeTreePosition cx cz index others rest

/-- Candidate anchor sampled by one attempt of the `world.js` variant:
uniform angle `rand * π * 2`, radius `6 + (36 - 6) * (0.4 + 0.6 * rand)`. -/
noncomputable def candidateW (cx cz angleRand rRand : ℝ) : ℝ × ℝ :=
  let angle := angleRand * Real.pi * 2
  let r := 6 + (36 - 6) * (0.4 + 0.6 * rRand)
  (cx + Real.cos angle * r, cz + Real.sin angle * r)

/-- Spacing acceptance check of the `world.js` variant: the planar
distance (the source takes a square root here) from every existing tree
must not be below `minTreeSpacing = 3.5`. -/
def spacingOkW (x z : ℝ) (others : List (ℝ × ℝ)) : Prop :=
  ∀ q ∈ others, ¬ (Real.sqrt ((x - q.1) * (x - q.1) + (z - q.2) * (z - q.2)) < 3.5)

open Classical in
/-- Anchor chosen by the attempt loop of `randomizeTreePosition` in the
`world.js` variant: the `while (!validPosition && attempts <
maxAttempts)` loop leaves `x, z` holding the last executed attempt,
so the last candidate is kept whether or not it passes the spacing
check; `none` corresponds to the (unreachable) zero-attempt
configuration in which `x, z` stay undefined. -/
noncomputable def randomizeTreePositionW (cx cz : ℝ) (others : List (ℝ × ℝ)) :
    List (ℝ × ℝ) → Option (ℝ × ℝ)
  | [] => none
  | [d] => some (candidateW cx cz d.1 d.2)
  | d :: rest =>
    let c := candidateW cx cz d.1 d.2
    if spacingOkW c.1 c.2 others then some c else randomizeTreePositionW cx cz others rest

/-- Per-tree persistent data of the `part_000` world module: the
`userData` fields carrying anchor and spawn-animation state. -/
structure TreeData where
  scaleBase : ℝ
  spinSpeed : ℝ
  spawnTime : ℝ
  baseY : ℝ
  baseX : ℝ
  baseZ : ℝ

/-- Recycle step of `updateWorld` (`part_000`) for a single tree: when
the squared planar distance from the tree's anchor to the player exceeds
`maxDist^2 = 42^2`, the anchor is reassigned through
`randomizeTreePosition` (with `index = i * 13.37` supplied by the
caller), the spawn clock is restarted at the current internal time and
the spin speed is redrawn.  The transient scale/height writes are
overwritten by the same frame's animation pass and carry no anchor
state. -/
noncomputable def recycleTree (t : TreeData) (cx cz index : ℝ) (others : List (ℝ × ℝ))
    (draws : List (ℝ × ℝ)) (internalTime spinDraw : ℝ) : TreeData :=
  if (t.baseX - cx) * (t.baseX - cx) + (t.baseZ - cz) * (t.baseZ - cz) > 42 * 42 then
    let c := randomizeTreePosition cx cz index others draws
    { t with baseX := c.1, baseZ := c.2, spawnTime := internalTime,
             spinSpeed := 0.8 + spinDraw * 0.8 }
  else t

/-- Radius bounds: for any draw in `[0, 1)` the sampled radius lies in
`[17.9, 40)`, in particular inside `[minRadius, maxRadius] = [6, 40]`. -/
theorem candidateRadius_bounds (r : ℝ) (h0 : 0 ≤ r) (h1 : r < 1) :
    17.9 ≤ candidateRadius r ∧ candidateRadius r < 40 := by
  unfold candidateRadius
  have hp0 : 0 ≤ r ^ (0.8 : ℝ) := Real.rpow_nonneg h0 _
  have hp1 : r ^ (0.8 : ℝ) < 1 := by
    rcases eq_or_lt_of_le h0 with h | h
    · rw [← h, Real.zero_rpow (by norm_num : (0.8:ℝ) ≠ 0)]
      norm_num
    · exact Real.rpow_lt_one h0 h1 (by norm_num)
  constructor <;> nlinarith

/-- The planar distance of a sampled candidate from the player is
exactly the sampled radius. -/
theorem candidate_dist (cx cz index jr rr : ℝ) (hr : 0 ≤ candidateRadius rr) :
    Real.sqrt (((candidate cx cz index jr rr).1 - cx)^2 +
      ((candidate cx cz index jr rr).2 - cz)^2) = candidateRadius rr := by
  unfold candidate
  dsimp only
  have hkey : (cx + Real.cos (index * goldenAngle + (jr - 0.5) * 0.6) * candidateRadius rr
        - cx)^2 +
      (cz + Real.sin (index * goldenAngle + (jr - 0.5) * 0.6) * candidateRadius rr - cz)^2 =
      (candidateRadius rr)^2 := by
    have h := Real.sin_sq_add_cos_sq (index * goldenAngle + (jr - 0.5) * 0.6)
    linear_combination (candidateRadius rr)^2 * h
  rw [hkey, Real.sqrt_sq hr]

/-- When at least one attempt passes the spacing check, the chosen
anchor of the `part_000` variant is one of the sampled candidates (the
first passing one). -/
theorem randomizeTreePosition_accepted (cx cz index : ℝ) (others : List (ℝ × ℝ))
    (draws : List (ℝ × ℝ))
    (h : ∃ d ∈ draws, spacingOk (candidate cx cz index d.1 d.2).1
      (candidate cx cz index d.1 d.2).2 others) :
    ∃ d ∈ draws, spacingOk (candidate cx cz index d.1 d.2).1
      (candidate cx cz index d.1 d.2).2 others ∧
      randomizeTreePosition cx cz index others draws = candidate cx cz index d.1 d.2 := by
  induction draws with
  | nil => obtain ⟨d, hd, _⟩ := h; exact absurd hd (List.not_mem_nil d)
  | cons d rest ih =>
    by_cases hd : spacingOk (candidate cx cz index d.1 d.2).1
        (candidate cx cz index d.1 d.2).2 others
    · refine ⟨d, List.mem_cons_self d rest, hd, ?_⟩
      unfold randomizeTreePosition
      rw [if_pos hd]
    · have hrest : ∃ e ∈ rest, spacingOk (candidate cx cz index e.1 e.2).1
          (candidate cx cz index e.1 e.2).2 others := by
        obtain ⟨e, he, hok⟩ := h
        rcases List.mem_cons.mp he with rfl | he'
        · exact absurd hok hd
        · exact ⟨e, he', hok⟩
      obtain ⟨e, he, hok, heq⟩ := ih hrest
      refine ⟨e, List.mem_cons_of_mem d he, hok, ?_⟩
      unfold randomizeTreePosition
      rw [if_neg hd]
      exact heq

/-- When every attempt fails the spacing check, the `part_000` variant
falls back to the player's own position. -/
theorem randomizeTreePosition_fallback (cx cz index : ℝ) (others : List (ℝ × ℝ))
    (draws : List (ℝ × ℝ))
    (h : ∀ d ∈ draws, ¬ spacingOk (candidate cx cz index d.1 d.2).1
      (candidate cx cz index d.1 d.2).2 others) :
    randomizeTreePosition cx cz index others draws = (cx, cz) := by
  induction draws with
  | nil => rfl
  | cons d rest ih =>
    unfold randomizeTreePosition
    rw [if_neg (h d (List.mem_cons_self d rest))]
    exact ih fun e he => h e (List.mem_cons_of_mem d he)

/-- When every attempt fails the spacing check, the `world.js` variant
keeps the last sampled candidate. -/
theorem randomizeTreePositionW_fallback (cx cz : ℝ) (others : List (ℝ × ℝ))
    (draws : List (ℝ × ℝ)) (dlast : ℝ × ℝ) (hlast : draws.getLast? = some dlast)
    (h : ∀ d ∈ draws, ¬ spacingOkW (candidateW cx cz d.1 d.2).1
      (candidateW cx cz d.1 d.2).2 others) :
    randomizeTreePositionW cx cz others draws = some (candidateW cx cz dlast.1 dlast.2) := by
  induction draws with
  | nil => simp at hlast
  | cons d rest ih =>
    cases rest with
    | nil =>
      simp only [List.getLast?_singleton, Option.some.injEq] at hlast
      subst hlast
      rfl
    | cons e rest' =>
      unfold randomizeTreePositionW
      rw [if_neg (h d (List.mem_cons_self d _))]
      rw [List.getLast?_cons_cons] at hlast
      exact ih hlast fun q hq => h q (List.mem_cons_of_mem d hq)

/-- C3 (counterexample) — a tree at anchor distance 50 from the player
at the origin is reassigned on the next tick, but when every one of the
7 sampled candidates fails the spacing check (here all draws coincide
and another tree's anchor sits exactly at the sampled candidate), the
new anchor is the player's own position, at distance 0, not within
`[minRadius, maxRadius] = [6, 40]`. -/
theorem recycle_radius_counterexample :
    (recycleTree ⟨1, 1, -1000, 1.6, 50, 0⟩ 0 0 0 [candidate 0 0 0 0.5 0]
      (List.replicate 7 (0.5, 0)) 0 0).baseX = 0 ∧
    (recycleTree ⟨1, 1, -1000, 1.6, 50, 0⟩ 0 0 0 [candidate 0 0 0 0.5 0]
      (List.replicate 7 (0.5, 0)) 0 0).baseZ = 0 ∧
    ¬ (6 ≤ Real.sqrt
      (((recycleTree ⟨1, 1, -1000, 1.6, 50, 0⟩ 0 0 0 [candidate 0 0 0 0.5 0]
          (List.replicate 7 (0.5, 0)) 0 0).baseX - 0)^2 +
        ((recycleTree ⟨1, 1, -1000, 1.6, 50, 0⟩ 0 0 0 [candidate 0 0 0 0.5 0]
          (List.replicate 7 (0.5, 0)) 0 0).baseZ - 0)^2)) := by
  have hfail : ∀ d ∈ List.replicate 7 ((0.5 : ℝ), (0 : ℝ)),
      ¬ spacingOk (candidate 0 0 0 d.1 d.2).1 (candidate 0 0 0 d.1 d.2).2
        [candidate 0 0 0 0.5 0] := by
    intro d hd
    have hde : d = (0.5, 0) := List.eq_of_mem_replicate hd
    subst hde
    intro hok
    have h0 := hok (candidate 0 0 0 0.5 0) (List.mem_singleton_self _)
    apply h0
    have hx : (candidate 0 0 0 0.5 0).1 - (candidate 0 0 0 0.5 0).1 = 0 := sub_self _
    have hz : (candidate 0 0 0 0.5 0).2 - (candidate 0 0 0 0.5 0).2 = 0 := sub_self _
    rw [hx, hz]
    norm_num
  have hanchor : recycleTree ⟨1, 1, -1000, 1.6, 50, 0⟩ 0 0 0 [candidate 0 0 0 0.5 0]
      (List.replicate 7 (0.5, 0)) 0 0 =
      { scaleBase := 1, spinSpeed := 0.8 + 0 * 0.8, spawnTime := 0, baseY := 1.6,
        baseX := 0, baseZ := 0 } := by
    unfold recycleTree
    rw [if_pos (by norm_num)]
    rw [randomizeTreePosition_fallback 0 0 0 [candidate 0 0 0 0.5 0]
      (List.replicate 7 (0.5, 0)) hfail]
  rw [hanchor]
  refine ⟨rfl, rfl, ?_⟩
  dsimp only
  rw [show ((0:ℝ) - 0)^2 + ((0:ℝ) - 0)^2 = 0 by norm_num, Real.sqrt_zero]
  norm_num

/-- C3 (amended) — a tree whose anchor's squared planar distance to the
player exceeds `42^2` is reassigned on the very next world-update tick;
whenever at least one of the sampled candidates passes the spacing
check, the new anchor's planar distance from the player lies within
`[minRadius, maxRadius] = [6, 40]` (in fact within `[17.9, 40)`); when
every sampled candidate fails the spacing check, the new anchor is the
player's own position (distance 0). -/
theorem recycle_radius_amended (t : TreeData) (cx cz index internalTime spinDraw : ℝ)
    (others : List (ℝ × ℝ)) (draws : List (ℝ × ℝ))
    (hfar : (t.baseX - cx) * (t.baseX - cx) + (t.baseZ - cz) * (t.baseZ - cz) > 42 * 42)
    (hdraws : ∀ d ∈ draws, 0 ≤ d.2 ∧ d.2 < 1) :
    ((∃ d ∈ draws, spacingOk (candidate cx cz index d.1 d.2).1
        (candidate cx cz index d.1 d.2).2 others) →
      6 ≤ Real.sqrt
        (((recycleTree t cx cz index others draws internalTime spinDraw).baseX - cx)^2 +
          ((recycleTree t cx cz index others draws internalTime spinDraw).baseZ - cz)^2) ∧
      Real.sqrt
        (((recycleTree t cx cz index others draws internalTime spinDraw).baseX - cx)^2 +
          ((recycleTree t cx cz index others draws internalTime spinDraw).baseZ - cz)^2)
        ≤ 40) ∧
    ((∀ d ∈ draws, ¬ spacingOk (candidate cx cz index d.1 d.2).1
        (candidate cx cz index d.1 d.2).2 others) →
      (recycleTree t cx cz index others draws internalTime spinDraw).baseX = cx ∧
      (recycleTree t cx cz index others draws internalTime spinDraw).baseZ = cz) := by
  have hrec : recycleTree t cx cz index others draws internalTime spinDraw =
      { t with baseX := (randomizeTreePosition cx cz index others draws).1,
               baseZ := (randomizeTreePosition cx cz index others draws).2,
               spawnTime := internalTime, spinSpeed := 0.8 + spinDraw * 0.8 } := by
    unfold recycleTree
    rw [if_pos hfar]
  constructor
  · intro hacc
    obtain ⟨d, hd, _, heq⟩ := randomizeTreePosition_accepted cx cz index others draws hacc
    have hbounds := candidateRadius_bounds d.2 (hdraws d hd).1 (hdraws d hd).2
    have hr0 : 0 ≤ candidateRadius d.2 := by linarith [hbounds.1]
    have hdist := candidate_dist cx cz index d.1 d.2 hr0
    rw [hrec]
    dsimp only
    rw [heq, hdist]
    constructor
    · linarith [hbounds.1]
    · linarith [hbounds.2]
  · intro hfail
    rw [hrec]
    dsimp only
    rw [randomizeTreePosition_fallback cx cz index others draws hfail]
    exact ⟨rfl, rfl⟩

/-- Witness for C3 (amended): a tree at anchor `(50, 0)` with the player
at the origin, one sampling attempt with draw `(0.5, 0)` and no other
trees (so the spacing check passes vacuously), is reassigned into the
documented radius band. -/
theorem recycle_radius_amended_witness :
    ((∃ d ∈ [((0.5 : ℝ), (0 : ℝ))], spacingOk (candidate 0 0 0 d.1 d.2).1
        (candidate 0 0 0 d.1 d.2).2 []) →
      6 ≤ Real.sqrt
        (((recycleTree ⟨1, 1, -1000, 1.6, 50, 0⟩ 0 0 0 [] [(0.5, 0)] 0 0).baseX - 0)^2 +
          ((recycleTree ⟨1, 1, -1000, 1.6, 50, 0⟩ 0 0 0 [] [(0.5, 0)] 0 0).baseZ - 0)^2) ∧
      Real.sqrt
        (((recycleTree ⟨1, 1, -1000, 1.6, 50, 0⟩ 0 0 0 [] [(0.5, 0)] 0 0).baseX - 0)^2 +
          ((recycleTree ⟨1, 1, -1000, 1.6, 50, 0⟩ 0 0 0 [] [(0.5, 0)] 0 0).baseZ - 0)^2)
        ≤ 40) ∧
    ((∀ d ∈ [((0.5 : ℝ), (0 : ℝ))], ¬ spacingOk (candidate 0 0 0 d.1 d.2).1
        (candidate 0 0 0 d.1 d.2).2 []) →
      (recycleTree ⟨1, 1, -1000, 1.6, 50, 0⟩ 0 0 0 [] [(0.5, 0)] 0 0).baseX = 0 ∧
      (recycleTree ⟨1, 1, -1000, 1.6, 50, 0⟩ 0 0 0 [] [(0.5, 0)] 0 0).baseZ = 0) :=
  recycle_radius_amended ⟨1, 1, -1000, 1.6, 50, 0⟩ 0 0 0 0 0 [] [(0.5, 0)]
    (by norm_num) (by intro d hd; rw [List.eq_of_mem_singleton hd]; norm_num)

/-- C7 (counterexample) — in the golden-angle variant, when every one of
the 7 attempts fails the spacing check, the position finally assigned is
the player's position `(0, 0)`, which differs from the last sampled
candidate (equal to `(17.9, 0)` for these draws): the claimed
last-candidate fallback does not hold for this variant. -/
theorem placement_fallback_counterexample :
    randomizeTreePosition 0 0 0 [candidate 0 0 0 0.5 0] (List.replicate 7 (0.5, 0))
      = ((0 : ℝ), (0 : ℝ)) ∧
    candidate 0 0 0 0.5 0 = ((17.9 : ℝ), (0 : ℝ)) ∧
    candidate 0 0 0 0.5 0 ≠ ((0 : ℝ), (0 : ℝ)) := by
  have hcand : candidate 0 0 0 0.5 0 = ((17.9 : ℝ), (0 : ℝ)) := by
    unfold candidate
    dsimp only
    rw [show (0 : ℝ) * goldenAngle + ((0.5 : ℝ) - 0.5) * 0.6 = 0 by ring]
    rw [Real.cos_zero, Real.sin_zero]
    rw [show candidateRadius 0 = 17.9 by
      unfold candidateRadius
      rw [Real.zero_rpow (by norm_num : (0.8 : ℝ) ≠ 0)]
      norm_num]
    norm_num
  have hfail : ∀ d ∈ List.replicate 7 ((0.5 : ℝ), (0 : ℝ)),
      ¬ spacingOk (candidate 0 0 0 d.1 d.2).1 (candidate 0 0 0 d.1 d.2).2
        [candidate 0 0 0 0.5 0] := by
    intro d hd
    have hde : d = (0.5, 0) := List.eq_of_mem_replicate hd
    subst hde
    intro hok
    have h0 := hok (candidate 0 0 0 0.5 0) (List.mem_singleton_self _)
    apply h0
    rw [sub_self, sub_self]
    norm_num
  refine ⟨randomizeTreePosition_fallback 0 0 0 [candidate 0 0 0 0.5 0]
    (List.replicate 7 (0.5, 0)) hfail, hcand, ?_⟩
  rw [hcand]
  intro h
  have := congrArg Prod.fst h
  norm_num at this

/-- C7 (amended) — when tree placement fails to find a
spacing-compliant anchor within the attempt bound, the golden-angle
variant (`part_000`, 7 attempts) assigns the player's own position
`(cx, cz)` (the initial value of its chosen-position variables), while
the `world.js` variant (20 attempts) assigns the last sampled candidate;
neither raises an error. -/
theorem placement_fallback_amended :
    (∀ (cx cz index : ℝ) (others : List (ℝ × ℝ)) (draws : List (ℝ × ℝ)),
      (∀ d ∈ draws, ¬ spacingOk (candidate cx cz index d.1 d.2).1
        (candidate cx cz index d.1 d.2).2 others) →
      randomizeTreePosition cx cz index others draws = (cx, cz)) ∧
    (∀ (cx cz : ℝ) (others : List (ℝ × ℝ)) (draws : List (ℝ × ℝ)) (dlast : ℝ × ℝ),
      draws.getLast? = some dlast →
      (∀ d ∈ draws, ¬ spacingOkW (candidateW cx cz d.1 d.2).1
        (candidateW cx cz d.1 d.2).2 others) →
      randomizeTreePositionW cx cz others draws = some (candidateW cx cz dlast.1 dlast.2)) :=
  ⟨randomizeTreePosition_fallback, randomizeTreePositionW_fallback⟩

/-- Witness for C7 (amended): with the player at the origin, a single
other tree sitting exactly at the sampled candidate position makes every
attempt fail in both variants; the golden-angle variant then yields the
origin while the `world.js` variant yields its last sampled candidate. -/
theorem placement_fallback_amended_witness :
    randomizeTreePosition 0 0 0 [candidate 0 0 0 0.5 0] (List.replicate 7 (0.5, 0))
      = ((0 : ℝ), (0 : ℝ)) ∧
    randomizeTreePositionW 0 0 [candidateW 0 0 0.5 0.5] (List.replicate 20 (0.5, 0.5))
      = some (candidateW 0 0 0.5 0.5) := by
  constructor
  · apply placement_fallback_amended.1
    intro d hd
    have hde : d = (0.5, 0) := List.eq_of_mem_replicate hd
    subst hde
    intro hok
    have h0 := hok (candidate 0 0 0 0.5 0) (List.mem_singleton_self _)
    apply h0
    rw [sub_self, sub_self]
    norm_num
  · apply placement_fallback_amended.2 0 0 [candidateW 0 0 0.5 0.5]
      (List.replicate 20 (0.5, 0.5)) (0.5, 0.5)
    · rw [List.getLast?_replicate]
      norm_num
    · intro d hd
      have hde : d = (0.5, 0.5) := List.eq_of_mem_replicate hd
      subst hde
      intro hok
      have h0 := hok (candidateW 0 0 0.5 0.5) (List.mem_singleton_self _)
      apply h0
      rw [sub_self, sub_self]
      rw [show (0:ℝ) * 0 + 0 * 0 = 0 by norm_num, Real.sqrt_zero]
      norm_num

/-! ## Spawn animator (per-tree animation pass of `updateWorld`)

Both source variants compute, per tree and per frame, a scale factor, a
vertical rise offset, and rotational/lateral terms from the tree's spawn
age.  The `part_000` variant uses a 3-second cubic curve with overshoot
coefficient 1.9 applied to both cubic terms; the `world.js` variant uses
a 10.5-second two-phase creep-then-burst curve.  The JS `x || 1.0`
fallbacks on `userData` fields are embedded by `orDefault` (they differ
from the plain field only at 0). -/

/-- JS numeric `x || d` for non-NaN numbers: `d` exactly when `x` is 0. -/
noncomputable def orDefault (x d : ℝ) : ℝ := if x = 0 then d else x

/-- Easing curve of the `part_000` variant:
`1 + overshoot * (u - 1)^3 + overshoot * (u - 1)^2` with
`overshoot = 1.9`. -/
noncomputable def easedP (u : ℝ) : ℝ := 1 + 1.9 * (u - 1)^3 + 1.9 * (u - 1)^2

/-- Scale output of the `part_000` spawn animation at eased progress
`easedP u`: `lerp(0.05 * baseScale, 1.15 * baseScale, eased)`. -/
noncomputable def growFactorP (baseScale u : ℝ) : ℝ :=
  lerp (0.05 * baseScale) (1.15 * baseScale) (easedP u)

/-- Per-tree spawn/ambient offset outputs of one animation pass. -/
structure SpawnOffsets where
  growFactor : ℝ
  riseOffset : ℝ
  spinAdd : ℝ
  offsetX : ℝ
  offsetZ : ℝ

/-- Spawn-offset computation of the animation pass of `updateWorld` in
the `part_000` variant (the block deriving `growFactor`, `riseOffset`,
`spinAdd`, `offsetX`, `offsetZ` from the tree's spawn age); the ambient
sway terms are additive and independent of spawn state, and are not part
of this computation. -/
noncomputable def spawnOffsets (t : TreeData) (internalTime cx cz : ℝ) : SpawnOffsets :=
  let ddx := t.baseX - cx
  let ddz := t.baseZ - cz
  let dist := Real.sqrt (ddx * ddx + ddz * ddz)
  let age := max 0 (internalTime - t.spawnTime)
  if age < 3 then
    let u := age / 3
    let baseScale := orDefault t.scaleBase 1
    let growFactor := growFactorP baseScale u
    let distFactor := clamp ((dist - 10) / 25) 0 1
    let baseRise := lerp 0.3 1.4 distFactor
    let riseOffset := lerp (-2) baseRise (easedP u)
    let spinAdd := (1 - u) * orDefault t.spinSpeed 1 * 0.4
    if dist > 0.001 then
      let driftMag := (1 - u) * 0.8 * distFactor
      { growFactor := growFactor, riseOffset := riseOffset, spinAdd := spinAdd,
        offsetX := ddx / dist * driftMag, offsetZ := ddz / dist * driftMag }
    else
      { growFactor := growFactor, riseOffset := riseOffset, spinAdd := spinAdd,
        offsetX := 0, offsetZ := 0 }
  else
    { growFactor := orDefault t.scaleBase 1, riseOffset := 0, spinAdd := 0,
      offsetX := 0, offsetZ := 0 }

/-- Easing curve of the `world.js` variant: a slow creep
`(u/0.5)^0.4 * 0.15` for the first half, then a cubic burst with
overshoot 2.8 and a sinusoidal stutter term. -/
noncomputable def easedW (u : ℝ) : ℝ :=
  if u < 0.5 then (u / 0.5) ^ (0.4 : ℝ) * 0.15
  else
    let t2 := (u - 0.5) / 0.5
    let stutter := Real.sin (t2 * Real.pi * 8) * 0.08 * (1 - t2)
    0.15 + (1 + 2.8 * (t2 - 1)^3 + stutter) * 0.85

/-- Spawn-offset computation of the animation pass of `updateWorld` in
the `world.js` variant: `(growFactor, riseOffset, spawnTwist)` from the
tree's spawn age, its spawn rotation draw and its current planar
distance to the player. -/
noncomputable def spawnOffsetsW (spawnTime spawnRotation internalTime dist : ℝ) :
    ℝ × ℝ × ℝ :=
  let age := max 0 (internalTime - spawnTime)
  if age < 10.5 then
    let u := age / 10.5
    let eased := easedW u
    let growFactor := lerp 0.01 1.25 (min 1 eased)
    let distFactor := clamp ((dist - 10) / 25) 0 1
    let baseRise := lerp 0.5 2.5 distFactor
    let riseOffset := lerp (-4.5) baseRise (min 1 eased)
    let twistAmount := Real.sin (u * Real.pi) * 0.9 + Real.sin (u * Real.pi * 3) * 0.3
    (growFactor, riseOffset, spawnRotation * twistAmount)
  else (1, 0, 0)

/-- The scale output of the `part_000` animation pass depends only on
the spawn age and the base scale (both branches of the inner
distance-gated drift conditional carry the same scale). -/
theorem spawnOffsets_growFactor (t : TreeData) (internalTime cx cz : ℝ) :
    (spawnOffsets t internalTime cx cz).growFactor =
      if max 0 (internalTime - t.spawnTime) < 3
      then growFactorP (orDefault t.scaleBase 1) (max 0 (internalTime - t.spawnTime) / 3)
      else orDefault t.scaleBase 1 := by
  unfold spawnOffsets
  dsimp only
  by_cases h1 : max 0 (internalTime - t.spawnTime) < 3
  · rw [if_pos h1, if_pos h1]
    by_cases h2 : Real.sqrt ((t.baseX - cx) * (t.baseX - cx) +
        (t.baseZ - cz) * (t.baseZ - cz)) > 0.001
    · rw [if_pos h2]
    · rw [if_neg h2]
  · rw [if_neg h1, if_neg h1]

/-- C9 — once a tree's spawn age has reached the grow duration, the
spawn-offset computation yields the neutral output at that clock value
and at every later one, in both variants: scale equal to the instance's
base scale (`scaleBase || 1`, which equals `scaleBase` whenever the
latter is nonzero, as it always is for the construction range
`[0.8, 1.4]`), zero rise offset, zero spin addition and zero lateral
drift — and, the computation being a pure function of the clock value,
the same neutral output no matter how many times it is evaluated. -/
theorem settled_spawn_neutral :
    (∀ (t : TreeData) (cx cz now : ℝ), t.spawnTime + 3 ≤ now →
      spawnOffsets t now cx cz =
        { growFactor := orDefault t.scaleBase 1, riseOffset := 0, spinAdd := 0,
          offsetX := 0, offsetZ := 0 }) ∧
    (∀ spawnTime spawnRotation dist now : ℝ, spawnTime + 10.5 ≤ now →
      spawnOffsetsW spawnTime spawnRotation now dist = (1, 0, 0)) ∧
    (∀ b : ℝ, b ≠ 0 → orDefault b 1 = b) := by
  refine ⟨?_, ?_, ?_⟩
  · intro t cx cz now h
    unfold spawnOffsets
    dsimp only
    rw [if_neg (by
      rw [not_lt]
      exact le_max_of_le_right (by linarith))]
  · intro spawnTime spawnRotation dist now h
    unfold spawnOffsetsW
    dsimp only
    rw [if_neg (by
      rw [not_lt]
      exact le_max_of_le_right (by linarith))]
  · intro b hb
    unfold orDefault
    rw [if_neg hb]

/-- Witness for C9: a tree spawned at internal time 0 evaluated at time
5 (and the `world.js` variant at time 11) yields the neutral output, and
the `||`-fallback is the identity on the nonzero base scale 1.2. -/
theorem settled_spawn_neutral_witness :
    spawnOffsets ⟨1.2, 1, 0, 1.6, 20, 0⟩ 5 0 0 =
      { growFactor := orDefault (1.2 : ℝ) 1, riseOffset := 0, spinAdd := 0,
        offsetX := 0, offsetZ := 0 } ∧
    spawnOffsetsW 0 0.7 11 20 = (1, 0, 0) ∧
    orDefault (1.2 : ℝ) 1 = 1.2 :=
  ⟨settled_spawn_neutral.1 ⟨1.2, 1, 0, 1.6, 20, 0⟩ 0 0 5 (by norm_num),
   settled_spawn_neutral.2.1 0 0.7 20 11 (by norm_num),
   settled_spawn_neutral.2.2 1.2 (by norm_num)⟩

/-- C8 (evaluation at the failing input) — at normalized progress
`u = 0` the `part_000` variant's eased progress is already 1 (both cubic
terms share the coefficient 1.9 and cancel), so the scale output is the
full overshoot `1.15 * baseScale`, not within any small epsilon of the
near-zero minimum `0.05 * baseScale`; this contradicts the source's own
comment ("grow from very small to slightly overscaled then settle
back") and the tiny scale `0.05 * scaleBase` it installs at recycle
time.  The `world.js` variant does satisfy the claim: its scale at
`u = 0` is `0.01`.  At `u = 1` (age equal to the duration) both variants
yield exactly the steady-state base scale. -/
theorem spawn_scale_at_start_eval :
    easedP 0 = 1 ∧
    (∀ b : ℝ, growFactorP b 0 = 1.15 * b) ∧
    (spawnOffsets ⟨1, 1, 0, 1.6, 20, 0⟩ 0 0 0).growFactor = 1.15 ∧
    (spawnOffsets ⟨1, 1, 0, 1.6, 20, 0⟩ 3 0 0).growFactor = 1 ∧
    easedW 0 = 0 ∧
    (spawnOffsetsW 0 0 0 20).1 = 0.01 ∧
    (spawnOffsetsW 0 0 10.5 20).1 = 1 := by
  have heased : easedP 0 = 1 := by
    unfold easedP
    norm_num
  have hgf : ∀ b : ℝ, growFactorP b 0 = 1.15 * b := by
    intro b
    unfold growFactorP lerp
    rw [heased]
    ring
  have hor1 : orDefault (1 : ℝ) 1 = 1 := by
    unfold orDefault
    rw [if_neg (one_ne_zero)]
  have heasedW : easedW 0 = 0 := by
    unfold easedW
    rw [if_pos (by norm_num)]
    rw [zero_div, Real.zero_rpow (by norm_num : (0.4 : ℝ) ≠ 0)]
    ring
  refine ⟨heased, hgf, ?_, ?_, heasedW, ?_, ?_⟩
  · rw [spawnOffsets_growFactor]
    dsimp only
    rw [if_pos (by norm_num), hor1]
    rw [show max 0 ((0:ℝ) - 0) / 3 = 0 by norm_num]
    rw [hgf]
    norm_num
  · rw [spawnOffsets_growFactor]
    dsimp only
    rw [if_neg (by norm_num), hor1]
  · unfold spawnOffsetsW
    dsimp only
    rw [if_pos (by norm_num)]
    dsimp only
    rw [show max 0 ((0:ℝ) - 0) / 10.5 = 0 by norm_num, heasedW]
    unfold lerp
    norm_num
  · unfold spawnOffsetsW
    dsimp only
    rw [if_neg (by norm_num)]

end EndlessDream
